import Mathlib

/-!
# Verification of the EVA4 library (`eva4tensorboardtrainer.py`, `s11net.py`)

A shallow embedding of the repository's training/evaluation orchestration
(`Train`, `Test`, `ModelTrainer`, `make_one_hot`) and of the S11Net model
blocks (`ResBlock`, `S11Block`, the `S11Net` layer construction), together
with theorems settling the specification's claims about them.

Scalar tensor values are embedded as rationals (`ℚ`).  The external
autodiff/tensor framework is modelled by an explicit event trace plus a
small-step interpreter over a library state (parameters, gradients, and
the run-manager's running statistics); the external `tqdm` progress
utility's `write` classmethod is modelled just far enough to capture its
`file` parameter semantics.
-/

namespace EVA4

/-! ## Scalar loss computation of `Train.run` (eva4tensorboardtrainer.py lines 77-84)

`loss = self.lossfn(y_pred, target)` followed by the L1-regularization block:
`if self.L1lambda > 0: reg_loss = 0.; for param in self.model.parameters():
reg_loss += torch.sum(param.abs()); loss += self.L1lambda * reg_loss`.
A model parameter tensor is embedded as the list of its entries, and the
model's parameter collection as a list of such lists. -/

/-- Embedding of `torch.sum(param.abs())`: the sum of absolute values of one
parameter tensor's entries. -/
def paramAbsSum (param : List ℚ) : ℚ :=
  (param.map (fun v => |v|)).sum

/-- Embedding of lines 77-84 of `Train.run`: the loss value that is
subsequently passed to `loss.backward()`.  `baseLoss` stands for
`self.lossfn(y_pred, target)`; the `for param in self.model.parameters()`
accumulation is a left fold starting from `reg_loss = 0.`. -/
def computeBatchLoss (L1lambda : ℚ) (baseLoss : ℚ) (params : List (List ℚ)) : ℚ :=
  if L1lambda > 0 then
    let reg_loss := params.foldl (fun acc param => acc + paramAbsSum param) 0
    baseLoss + L1lambda * reg_loss
  else
    baseLoss

/-! ## Event traces of the training / evaluation loops

Each externally visible call made by `Train.run`, `Test.run` and
`ModelTrainer.run` is an event.  Events into the run-manager collaborator
and events into the autodiff library are distinguished by `isRunManagerEv`. -/

/-- The externally visible calls made by the trainer classes. -/
inductive Ev where
  | beginRun | beginEpoch | beginBatch
  | zeroGrad | forwardPass | lossCalc | l1Add | backwardPass | optStep
  | trackTrainLoss | trackTrainNumCorrect | endBatch
  | batchSchedStep
  | noGradEnter | noGradExit
  | trackTestLoss | trackTestNumCorrect
  | testSchedStep
  | endEpoch | savebest | epochSchedStep | save
  deriving DecidableEq, Repr

/-- The events that are calls on the external run-manager collaborator
(`begin_run / begin_epoch / begin_batch / track_* / end_batch / end_epoch /
savebest / save`). -/
def isRunManagerEv : Ev → Bool
  | .beginRun | .beginEpoch | .beginBatch
  | .trackTrainLoss | .trackTrainNumCorrect | .endBatch
  | .trackTestLoss | .trackTestNumCorrect
  | .endEpoch | .savebest | .save => true
  | _ => false

/-- Trace of one iteration of the `for data, target in pbar` loop of
`Train.run` (lines 57-105): `begin_batch`, `optimizer.zero_grad()`, the
forward pass `self.model(data)`, `self.lossfn(y_pred, target)`, the L1 term
added when `L1lambda > 0`, `loss.backward()`, `optimizer.step()`,
`track_train_loss`, `track_train_num_correct`, `end_batch`, and — only when
`self.scheduler` is set — `self.scheduler.step()` at the very end. -/
def trainBatchTrace (L1lambda : ℚ) (hasSched : Bool) : List Ev :=
  [.beginBatch, .zeroGrad, .forwardPass, .lossCalc]
    ++ (if L1lambda > 0 then [.l1Add] else [])
    ++ [.backwardPass, .optStep, .trackTrainLoss, .trackTrainNumCorrect, .endBatch]
    ++ (if hasSched then [.batchSchedStep] else [])

/-- Trace of `Train.run` over `n` training batches: the per-batch trace
repeated once per batch. -/
def trainRunTrace (L1lambda : ℚ) (hasSched : Bool) (n : Nat) : List Ev :=
  (List.replicate n (trainBatchTrace L1lambda hasSched)).flatten

/-! ## The `tqdm.write` model and `Test.run` (lines 117-130)

`pbar.write` is `tqdm.write(s, file=None, end="\n", nolock=False)`: it
resolves `fp` to `file` when `file` is not `None` and then calls
`fp.write(s)`.  Passing a numeric value (here, the float returned by
`self.runmanager.get_test_loss()`) as the second positional argument makes
`fp` that number, which has no `write` attribute, so the call raises
`AttributeError`. -/

/-- The value passed as `tqdm.write`'s `file` parameter: `None` (default), a
writable stream, or a float (which is not writable). -/
inductive WriteArg where
  | none
  | stream
  | floatVal (q : ℚ)
  deriving DecidableEq, Repr

/-- Model of the external `tqdm.write(s, file)`: with `file=None` or a
writable stream the write succeeds; with a float as `file`, `fp.write(s)`
raises `AttributeError` (floats have no `write` attribute). -/
def tqdmWrite (_s : String) (file : WriteArg) : Except Unit Unit :=
  match file with
  | .none => .ok ()
  | .stream => .ok ()
  | .floatVal _ => .error ()

/-- Trace of `Test.run` (lines 117-130) over `m` test batches, together with
a flag recording whether an exception escaped.  The whole body runs inside
`with torch.no_grad():`.  Each loop iteration performs the forward pass,
the loss computation, `track_test_loss` and `track_test_num_correct`.  After
the loop, when a scheduler is configured and it is a `ReduceLROnPlateau`
instance, line 129 calls
`pbar.write("In scheduler step with loss of ", test_loss)` — the test loss
lands in `tqdm.write`'s `file` parameter — and only if that call returned
would line 130 perform `scheduler.step(test_loss)`. -/
def testRunTrace (hasSched isRLROP : Bool) (testLoss : ℚ) (m : Nat) :
    List Ev × Bool :=
  let loopEvs := (List.replicate m
    [Ev.forwardPass, Ev.lossCalc, Ev.trackTestLoss, Ev.trackTestNumCorrect]).flatten
  if hasSched && isRLROP then
    match tqdmWrite "In scheduler step with loss of " (.floatVal testLoss) with
    | .error _ => ([Ev.noGradEnter] ++ loopEvs ++ [Ev.noGradExit], true)
    | .ok _ => ([Ev.noGradEnter] ++ loopEvs ++ [Ev.testSchedStep, Ev.noGradExit], false)
  else
    ([Ev.noGradEnter] ++ loopEvs ++ [Ev.noGradExit], false)

/-! ## `ModelTrainer` (lines 132-165)

`ModelTrainer.__init__` builds `self.train` passing
`self.scheduler if self.batch_scheduler else None` as the training runner's
scheduler, and `self.test` passing `self.scheduler` unconditionally.
`ModelTrainer.run` calls `begin_run`, then for each epoch: `begin_epoch`,
`self.train.run()`, `self.test.run()`, `end_epoch`, `savebest`, and an
epoch-level `scheduler.step()` only when a scheduler is configured,
`batch_scheduler` is false, and the scheduler is not `ReduceLROnPlateau`;
after the loop, one `save`. -/

/-- Configuration of a `ModelTrainer`: whether a scheduler was supplied,
whether it is a `ReduceLROnPlateau` instance, the `batch_scheduler` flag and
the `L1lambda` value. -/
structure MTConfig where
  hasSched : Bool
  isRLROP : Bool
  batchSched : Bool
  L1lambda : ℚ

/-- The scheduler argument `ModelTrainer.__init__` (line 144) passes to the
training runner: `self.scheduler if self.batch_scheduler else None`. -/
def trainerSched (cfg : MTConfig) : Bool :=
  cfg.hasSched && cfg.batchSched

/-- Trace of one iteration of the epoch loop of `ModelTrainer.run`
(lines 150-160): `begin_epoch`, the training pass, the evaluation pass (an
exception escaping it aborts the epoch), `end_epoch`, `savebest`, and the
guarded epoch-level `scheduler.step()`. -/
def epochTrace (cfg : MTConfig) (testLoss : ℚ) (n m : Nat) : List Ev × Bool :=
  let te := testRunTrace cfg.hasSched cfg.isRLROP testLoss m
  let evs := [Ev.beginEpoch] ++ trainRunTrace cfg.L1lambda (trainerSched cfg) n ++ te.1
  if te.2 then (evs, true)
  else
    (evs ++ [Ev.endEpoch, Ev.savebest]
      ++ (if cfg.hasSched && !cfg.batchSched && !cfg.isRLROP
          then [Ev.epochSchedStep] else []), false)

/-- The epoch loop of `ModelTrainer.run` followed by the final
`self.runmanager.save(...)`: runs `epochs` epochs, propagating an exception
raised inside an epoch (which skips everything after it, the `save`
included). -/
def epochLoop (cfg : MTConfig) (testLoss : ℚ) (n m : Nat) : Nat → List Ev × Bool
  | 0 => ([Ev.save], false)
  | k + 1 =>
    let e := epochTrace cfg testLoss n m
    if e.2 then (e.1, true)
    else
      let rest := epochLoop cfg testLoss n m k
      (e.1 ++ rest.1, rest.2)

/-- Trace of `ModelTrainer.run(tbrun, epochs)` (lines 147-165) with `n`
training batches and `m` test batches per epoch: `begin_run`, then the
epoch loop, then `save` (unless an exception escaped). -/
def modelTrainerRunTrace (cfg : MTConfig) (testLoss : ℚ) (n m epochs : Nat) :
    List Ev × Bool :=
  let l := epochLoop cfg testLoss n m epochs
  ([Ev.beginRun] ++ l.1, l.2)

/-! ## Interpreter over the library state

The persistent state touched by the traced calls: model parameters and
gradients (owned by the external autodiff framework; abstracted to one
scalar each, with `g` the gradient a backward pass deposits and `lr` the
learning rate the optimizer applies) and the run-manager's running
statistics. -/

/-- The persistent state of a run: the model parameter and its accumulated
gradient, and the run-manager collaborator's running statistics. -/
structure LibState where
  param : ℚ
  grad : ℚ
  trainLossSum : ℚ
  trainCorrect : Nat
  testLossSum : ℚ
  testCorrect : Nat
  deriving DecidableEq, Repr

/-- Effect of one traced call on the library state: `optimizer.zero_grad()`
clears the gradient, `loss.backward()` adds the batch gradient `g` onto it
(PyTorch accumulates gradients across backward passes), `optimizer.step()`
applies a gradient-descent update with the current accumulated gradient,
and the `track_*` calls update the run-manager's statistics by the batch's
contribution (`dLoss` / `dCorrect`).  All other calls leave the state
unchanged. -/
def stepEv (g lr dLoss : ℚ) (dCorrect : Nat) (s : LibState) : Ev → LibState
  | .zeroGrad => { s with grad := 0 }
  | .backwardPass => { s with grad := s.grad + g }
  | .optStep => { s with param := s.param - lr * s.grad }
  | .trackTrainLoss => { s with trainLossSum := s.trainLossSum + dLoss }
  | .trackTrainNumCorrect => { s with trainCorrect := s.trainCorrect + dCorrect }
  | .trackTestLoss => { s with testLossSum := s.testLossSum + dLoss }
  | .trackTestNumCorrect => { s with testCorrect := s.testCorrect + dCorrect }
  | _ => s

/-- Running a trace: fold the per-event effect over the state. -/
def runTrace (g lr dLoss : ℚ) (dCorrect : Nat) (evs : List Ev) (s : LibState) :
    LibState :=
  evs.foldl (stepEv g lr dLoss dCorrect) s

/-- One training batch of `Train.run` acting on the state: the batch's
trace interpreted by `stepEv`, with `g` the gradient contributed by this
batch's `loss.backward()`. -/
def trainBatchState (L1lambda : ℚ) (hasSched : Bool) (g lr dLoss : ℚ)
    (dCorrect : Nat) (s : LibState) : LibState :=
  runTrace g lr dLoss dCorrect (trainBatchTrace L1lambda hasSched) s

/-- A whole training pass of `Train.run` acting on the state, one batch per
entry of `gs` (the gradient each batch's backward pass deposits). -/
def trainRunState (L1lambda : ℚ) (hasSched : Bool) (lr dLoss : ℚ)
    (dCorrect : Nat) (gs : List ℚ) (s : LibState) : LibState :=
  gs.foldl (fun s g => trainBatchState L1lambda hasSched g lr dLoss dCorrect s) s

/-- What the specification's phrase "gradient accumulation" would mean for
one batch, modelled from the spec: gradients of earlier batches are
retained (no `zero_grad`), the backward pass adds the batch gradient onto
them, and the optimizer step uses the whole accumulated gradient. -/
def trainBatchStateAccum (g lr : ℚ) (s : LibState) : LibState :=
  let s₁ := { s with grad := s.grad + g }
  { s₁ with param := s₁.param - lr * s₁.grad }

/-- A training pass under the spec's "gradient accumulation" reading,
modelled from the spec, one batch per entry of `gs`. -/
def trainRunStateAccum (lr : ℚ) (gs : List ℚ) (s : LibState) : LibState :=
  gs.foldl (fun s g => trainBatchStateAccum g lr s) s

/-! ## Tensors and the S11Net building blocks (`s11net.py`)

A 4-dimensional float tensor `N × C × H × W` is embedded as an explicit
shape together with a total indexing function into `ℚ`; entries outside the
shape are irrelevant to the theorems, which only quantify over in-range
indices. -/

/-- A rank-4 float tensor: batch `n`, channels `c`, height `h`, width `w`. -/
structure Tensor4 where
  n : Nat
  c : Nat
  h : Nat
  w : Nat
  data : Nat → Nat → Nat → Nat → ℚ

/-- A rank-4 integer (`LongTensor`) tensor, used for class labels. -/
structure IntTensor4 where
  n : Nat
  c : Nat
  h : Nat
  w : Nat
  data : Nat → Nat → Nat → Nat → Int

/-- Spatial size of one `nn.Conv2d` output dimension for input size `h`,
kernel size `k`, padding `p`, stride `s`. -/
def convOutDim (h k p s : Nat) : Nat :=
  (h + 2 * p - k) / s + 1

/-- Reading a padded input: index `(i, j)` into the (zero-)padded plane of
channel `ch` of batch element `b`; out-of-range positions read 0. -/
def padGet (x : Tensor4) (b ch : Nat) (i j : Int) : ℚ :=
  if 0 ≤ i ∧ i < (x.h : Int) ∧ 0 ≤ j ∧ j < (x.w : Int) then
    x.data b ch i.toNat j.toNat
  else 0

/-- Embedding of `nn.Conv2d(in_planes, cout, kernel_size=k, padding=p,
stride=s, bias=False)` applied to `x`: a cross-correlation over all input
channels with zero padding. -/
def conv2d (cout k p s : Nat) (weight : Nat → Nat → Nat → Nat → ℚ)
    (x : Tensor4) : Tensor4 :=
  { n := x.n, c := cout, h := convOutDim x.h k p s, w := convOutDim x.w k p s,
    data := fun b co i j =>
      ∑ ci ∈ Finset.range x.c, ∑ di ∈ Finset.range k, ∑ dj ∈ Finset.range k,
        weight co ci di dj *
          padGet x b ci ((s * i + di : Int) - p) ((s * j + dj : Int) - p) }

/-- Embedding of `nn.BatchNorm2d` in inference mode: a per-channel affine
map `v ↦ scale ch * v + shift ch` (with `scale = γ/√(σ²+ε)` and
`shift = β − γμ/√(σ²+ε)` folded into the per-channel coefficients). -/
def batchNorm2d (scale shift : Nat → ℚ) (x : Tensor4) : Tensor4 :=
  { x with data := fun b ch i j => scale ch * x.data b ch i j + shift ch }

/-- Embedding of `F.relu`: elementwise maximum with 0. -/
def reluT (x : Tensor4) : Tensor4 :=
  { x with data := fun b ch i j => max (x.data b ch i j) 0 }

/-- Embedding of `torch.add(x, out)` on same-shaped tensors: elementwise
sum, carrying `x`'s shape. -/
def addT (x y : Tensor4) : Tensor4 :=
  { x with data := fun b ch i j => x.data b ch i j + y.data b ch i j }

/-- Embedding of `nn.MaxPool2d(2)`: 2×2 max pooling with stride 2; output
spatial dims are halved (floor). -/
def maxPool2 (x : Tensor4) : Tensor4 :=
  { n := x.n, c := x.c, h := x.h / 2, w := x.w / 2,
    data := fun b ch i j =>
      max (max (x.data b ch (2 * i) (2 * j)) (x.data b ch (2 * i) (2 * j + 1)))
          (max (x.data b ch (2 * i + 1) (2 * j)) (x.data b ch (2 * i + 1) (2 * j + 1))) }

/-- The learned parameters of a `ResBlock(planes)` (s11net.py lines 12-18):
the two 3×3 convolution weights and the two batch-norm per-channel affine
coefficients. -/
structure ResBlockWeights where
  conv1w : Nat → Nat → Nat → Nat → ℚ
  bn1scale : Nat → ℚ
  bn1shift : Nat → ℚ
  conv2w : Nat → Nat → Nat → Nat → ℚ
  bn2scale : Nat → ℚ
  bn2shift : Nat → ℚ

/-- Embedding of `ResBlock.forward` (s11net.py lines 20-24):
`out = F.relu(self.bn1(self.conv1(x)))`,
`out = F.relu(self.bn2(self.conv2(out)))`,
`out = torch.add(x, out)`.  Both convolutions are
`nn.Conv2d(planes, planes, kernel_size=3, padding=1, stride=1, bias=False)`. -/
def resBlockForward (planes : Nat) (rw : ResBlockWeights) (x : Tensor4) :
    Tensor4 :=
  let out := reluT (batchNorm2d rw.bn1scale rw.bn1shift (conv2d planes 3 1 1 rw.conv1w x))
  let out := reluT (batchNorm2d rw.bn2scale rw.bn2shift (conv2d planes 3 1 1 rw.conv2w out))
  addT x out

/-- An `S11Block` instance as built by `S11Block.__init__` (s11net.py lines
27-34): its `parallel` flag, the 3×3 convolution weight, the batch-norm
coefficients, and `self.res` — present exactly when `parallel` was true. -/
structure S11BlockParams where
  in_planes : Nat
  planes : Nat
  parallel : Bool
  convw : Nat → Nat → Nat → Nat → ℚ
  bnscale : Nat → ℚ
  bnshift : Nat → ℚ
  res : Option ResBlockWeights

/-- Embedding of `S11Block.__init__(in_planes, planes, parallel)`: the
`self.res = ResBlock(planes)` attribute is created only when `parallel` is
true (`rw` stands for that residual block's freshly initialized weights). -/
def s11BlockInit (in_planes planes : Nat) (parallel : Bool)
    (convw : Nat → Nat → Nat → Nat → ℚ) (bnscale bnshift : Nat → ℚ)
    (rw : ResBlockWeights) : S11BlockParams :=
  { in_planes := in_planes, planes := planes, parallel := parallel,
    convw := convw, bnscale := bnscale, bnshift := bnshift,
    res := if parallel then some rw else none }

/-- Embedding of `S11Block.forward` (s11net.py lines 36-40):
`out = F.relu(self.bn(self.maxpool(self.conv(x))))`, then
`out = self.res(out)` when `self.parallel`; accessing the absent `res`
attribute would fail, hence the `Option` result. -/
def s11BlockForward (p : S11BlockParams) (x : Tensor4) : Option Tensor4 :=
  let out := reluT (batchNorm2d p.bnscale p.bnshift (maxPool2 (conv2d p.planes 3 1 1 p.convw x)))
  if p.parallel then p.res.map (fun rw => resBlockForward p.planes rw out)
  else some out

/-- The three `S11Block` layers built by `S11Net.__init__` (s11net.py lines
48-50): `S11Block(64, 128)`, `S11Block(128, 256, False)`,
`S11Block(256, 512)` — `parallel` defaults to `True`. -/
def s11NetLayers (w1 w2 w3 : Nat → Nat → Nat → Nat → ℚ)
    (s1 sh1 s2 sh2 s3 sh3 : Nat → ℚ) (r1 r2 r3 : ResBlockWeights) :
    S11BlockParams × S11BlockParams × S11BlockParams :=
  (s11BlockInit 64 128 true w1 s1 sh1 r1,
   s11BlockInit 128 256 false w2 s2 sh2 r2,
   s11BlockInit 256 512 true w3 s3 sh3 r3)

/-! ## `make_one_hot` (eva4tensorboardtrainer.py lines 6-25) -/

/-- A fresh all-zero float tensor, as built by
`torch.FloatTensor(N, C, H, W).zero_()` (the `cuda` branch builds the same
zero tensor on the other device). -/
def zeros4 (n c h w : Nat) : Tensor4 :=
  { n := n, c := c, h := h, w := w, data := fun _ _ _ _ => 0 }

/-- Embedding of `self.scatter_(1, index, src)` on a rank-4 tensor along
dimension 1: for every position `(b, jj, i, j)` of `index`, the entry of
`self` at `(b, index[b][jj][i][j], i, j)` becomes `src`; all other entries
keep their values. -/
def scatterDim1 (self : Tensor4) (index : IntTensor4) (src : ℚ) : Tensor4 :=
  { self with data := fun b ch i j =>
      if b < index.n ∧ i < index.h ∧ j < index.w ∧
          (∃ jj ∈ Finset.range index.c, index.data b jj i j = (ch : Int)) then src
      else self.data b ch i j }

/-- Embedding of `make_one_hot(labels, num_classes, device)`: a zeroed
`N × num_classes × H × W` float tensor scattered with 1 along dimension 1
at the label indices. -/
def make_one_hot (labels : IntTensor4) (num_classes : Nat) : Tensor4 :=
  let one_hot := zeros4 labels.n num_classes labels.h labels.w
  scatterDim1 one_hot labels 1

/-- The shape of a tensor, as a tuple `(N, C, H, W)`. -/
def shapeOf (t : Tensor4) : Nat × Nat × Nat × Nat :=
  (t.n, t.c, t.h, t.w)

/-- A concrete 1×1×1×1 input tensor used as a witness input. -/
def exX : Tensor4 :=
  ⟨1, 1, 1, 1, fun _ _ _ _ => 1⟩

/-- Concrete residual-block weights used as a witness input. -/
def exRW : ResBlockWeights :=
  ⟨fun _ _ _ _ => 1, fun _ => 1, fun _ => 0, fun _ _ _ _ => 1, fun _ => 1,
   fun _ => 0⟩

/-- A concrete 1×1×1×1 label tensor (all labels 0) used as a witness input. -/
def exLabels : IntTensor4 :=
  ⟨1, 1, 1, 1, fun _ _ _ _ => 0⟩

/-! ## Helper lemmas -/

theorem convOutDim_three_one_one (h : Nat) (hh : 1 ≤ h) :
    convOutDim h 3 1 1 = h := by
  unfold convOutDim
  omega

theorem foldl_add_paramAbsSum (params : List (List ℚ)) (acc : ℚ) :
    params.foldl (fun a param => a + paramAbsSum param) acc
      = acc + (params.map paramAbsSum).sum := by
  induction params generalizing acc with
  | nil => simp
  | cons p ps ih => simp [ih, add_assoc]

/-! ## Claim theorems -/

/-- C1: for every training batch processed by `Train.run` with
`L1lambda > 0`, the loss that is backpropagated equals
`lossfn(model(data), target)` plus `L1lambda` times the sum over all model
parameters of the sum of absolute values of the parameter's entries; with
`L1lambda = 0` the loss equals `lossfn(model(data), target)` unchanged. -/
theorem train_loss_l1_spec (L1lambda baseLoss : ℚ) (params : List (List ℚ)) :
    (0 < L1lambda →
      computeBatchLoss L1lambda baseLoss params
        = baseLoss
          + L1lambda * (params.map (fun p => (p.map (fun v => |v|)).sum)).sum)
    ∧ (L1lambda = 0 →
      computeBatchLoss L1lambda baseLoss params = baseLoss) := by
  constructor
  · intro h
    simp only [computeBatchLoss, if_pos h]
    rw [foldl_add_paramAbsSum]
    simp only [zero_add]
    rfl
  · intro h
    subst h
    simp [computeBatchLoss]

/-- Witness for C1 at `L1lambda = 1`, `baseLoss = 5`,
`params = [[-2, 3]]` and at `L1lambda = 0`. -/
theorem train_loss_l1_spec_witness :
    (computeBatchLoss 1 5 [[-2, 3]]
        = 5 + 1 * (([[-2, 3]] : List (List ℚ)).map
            (fun p => (p.map (fun v => |v|)).sum)).sum)
    ∧ computeBatchLoss 0 5 [[-2, 3]] = 5 :=
  ⟨(train_loss_l1_spec 1 5 [[-2, 3]]).1 (by norm_num),
   (train_loss_l1_spec 0 5 [[-2, 3]]).2 rfl⟩

/-- C2 counterexample: gradients are NOT retained across batches.  With
learning rate 1 and two batches whose backward passes deposit gradients
[1, 1] (no L1, no scheduler, zero tracking deltas), the gradient present
at the second optimizer step is 1, not the accumulated 2, and the final
parameter is -2, whereas the spec's gradient-accumulation reading would
give -3.  Moreover the second batch's parameter update is identical
whether the first batch's gradient was 5 or 0, so the earlier gradient
does not contribute to the later step. -/
theorem grad_accum_counterexample :
    (trainRunState 0 false 1 0 0 [1, 1] ⟨0, 0, 0, 0, 0, 0⟩).param = -2
    ∧ (trainRunState 0 false 1 0 0 [1, 1] ⟨0, 0, 0, 0, 0, 0⟩).grad = 1
    ∧ (trainRunStateAccum 1 [1, 1] ⟨0, 0, 0, 0, 0, 0⟩).param = -3
    ∧ (trainRunState 0 false 1 0 0 [5, 1] ⟨0, 0, 0, 0, 0, 0⟩).param
        - (trainRunState 0 false 1 0 0 [5] ⟨0, 0, 0, 0, 0, 0⟩).param
      = (trainRunState 0 false 1 0 0 [0, 1] ⟨0, 0, 0, 0, 0, 0⟩).param
        - (trainRunState 0 false 1 0 0 [0] ⟨0, 0, 0, 0, 0, 0⟩).param := by
  norm_num [trainRunState, trainRunStateAccum, trainBatchState,
    trainBatchStateAccum, runTrace, trainBatchTrace, stepEv]

/-- C2 amended: the training loop does not accumulate gradients across
batches — `optimizer.zero_grad()` at the start of every batch clears the
previously accumulated gradient, so each batch's optimizer step applies an
update computed from the current batch's gradient alone (`param - lr * g`),
independent of the gradient state left by earlier batches. -/
theorem train_batch_uses_only_current_grad (L1lambda : ℚ) (hasSched : Bool)
    (g lr dLoss : ℚ) (dCorrect : Nat) (s : LibState) :
    (trainBatchState L1lambda hasSched g lr dLoss dCorrect s).param
        = s.param - lr * g
    ∧ (trainBatchState L1lambda hasSched g lr dLoss dCorrect s).grad = g := by
  unfold trainBatchState runTrace trainBatchTrace
  by_cases h : L1lambda > 0 <;> cases hasSched <;> simp [h, stepEv]

/-- C3: within each training batch of `Train.run`, the external-library
calls happen in the order zero-grad, forward pass, loss computation,
backward pass, optimizer step; and when the training runner has a
scheduler, its step is the last call of the batch, after the metric
tracking calls and `end_batch`. -/
theorem train_batch_call_order (L1lambda : ℚ) (hasSched : Bool) :
    (trainBatchTrace L1lambda hasSched).indexOf Ev.zeroGrad
        < (trainBatchTrace L1lambda hasSched).indexOf Ev.forwardPass
    ∧ (trainBatchTrace L1lambda hasSched).indexOf Ev.forwardPass
        < (trainBatchTrace L1lambda hasSched).indexOf Ev.lossCalc
    ∧ (trainBatchTrace L1lambda hasSched).indexOf Ev.lossCalc
        < (trainBatchTrace L1lambda hasSched).indexOf Ev.backwardPass
    ∧ (trainBatchTrace L1lambda hasSched).indexOf Ev.backwardPass
        < (trainBatchTrace L1lambda hasSched).indexOf Ev.optStep
    ∧ (hasSched = true →
        (trainBatchTrace L1lambda hasSched).getLast? = some Ev.batchSchedStep
        ∧ (trainBatchTrace L1lambda hasSched).indexOf Ev.trackTrainLoss
            < (trainBatchTrace L1lambda hasSched).indexOf Ev.batchSchedStep
        ∧ (trainBatchTrace L1lambda hasSched).indexOf Ev.trackTrainNumCorrect
            < (trainBatchTrace L1lambda hasSched).indexOf Ev.batchSchedStep
        ∧ (trainBatchTrace L1lambda hasSched).indexOf Ev.endBatch
            < (trainBatchTrace L1lambda hasSched).indexOf Ev.batchSchedStep) := by
  by_cases h : L1lambda > 0 <;> cases hasSched <;> simp [trainBatchTrace, h]

/-- Witness for C3 at `L1lambda = 1` with a scheduler present. -/
theorem train_batch_call_order_witness :
    (trainBatchTrace 1 true).getLast? = some Ev.batchSchedStep :=
  ((train_batch_call_order 1 true).2.2.2.2 rfl).1

/-- Effect of one test-loop iteration's events on the state. -/
theorem runTrace_testBatch (g lr dLoss : ℚ) (dCorrect : Nat) (s : LibState) :
    runTrace g lr dLoss dCorrect
        [Ev.forwardPass, Ev.lossCalc, Ev.trackTestLoss, Ev.trackTestNumCorrect] s
      = { s with testLossSum := s.testLossSum + dLoss,
                 testCorrect := s.testCorrect + dCorrect } := by
  simp [runTrace, stepEv]

/-- Effect of the whole test loop on the state: only the run-manager's test
statistics change. -/
theorem runTrace_testLoop (g lr dLoss : ℚ) (dCorrect m : Nat) (s : LibState) :
    runTrace g lr dLoss dCorrect
        ((List.replicate m
          [Ev.forwardPass, Ev.lossCalc, Ev.trackTestLoss, Ev.trackTestNumCorrect]).flatten) s
      = { s with testLossSum := s.testLossSum + m * dLoss,
                 testCorrect := s.testCorrect + m * dCorrect } := by
  induction m generalizing s with
  | zero => simp [runTrace]
  | succ k ih =>
    rw [List.replicate_succ, List.flatten_cons]
    unfold runTrace
    rw [List.foldl_append]
    have h1 := runTrace_testBatch g lr dLoss dCorrect s
    unfold runTrace at h1 ih
    rw [h1, ih]
    simp only [LibState.mk.injEq, true_and]
    constructor
    · push_cast
      ring
    · ring

/-- The events of `Test.run`'s trace: the no-grad bracket around the loop
over batches; the `testSchedStep` branch is never reached because the
`pbar.write` call preceding it raises. -/
theorem testRunTrace_fst (hasSched isRLROP : Bool) (tl : ℚ) (m : Nat) :
    (testRunTrace hasSched isRLROP tl m).1
      = [Ev.noGradEnter]
        ++ (List.replicate m
            [Ev.forwardPass, Ev.lossCalc, Ev.trackTestLoss, Ev.trackTestNumCorrect]).flatten
        ++ [Ev.noGradExit] := by
  unfold testRunTrace
  split <;> rfl

/-- The exception flag of `Test.run`'s trace: set exactly when a scheduler
is present and is a `ReduceLROnPlateau` instance. -/
theorem testRunTrace_snd (hasSched isRLROP : Bool) (tl : ℚ) (m : Nat) :
    (testRunTrace hasSched isRLROP tl m).2 = (hasSched && isRLROP) := by
  unfold testRunTrace
  split <;> simp_all [tqdmWrite]

/-- The events `Test.run` can emit: the no-grad bracket, per-batch forward
pass, loss computation and the two test `track_*` calls — never a backward
pass, optimizer step or (because of the faulty `pbar.write` call) a
scheduler step. -/
theorem mem_testRunTrace (hasSched isRLROP : Bool) (tl : ℚ) (m : Nat) (e : Ev)
    (h : e ∈ (testRunTrace hasSched isRLROP tl m).1) :
    e = Ev.noGradEnter ∨ e = Ev.noGradExit ∨ e = Ev.forwardPass
    ∨ e = Ev.lossCalc ∨ e = Ev.trackTestLoss ∨ e = Ev.trackTestNumCorrect := by
  rw [testRunTrace_fst] at h
  rcases List.mem_append.mp h with h1 | h2
  · rcases List.mem_append.mp h1 with ha | hb
    · left
      simpa using ha
    · obtain ⟨l, hl, he⟩ := List.mem_flatten.mp hb
      obtain ⟨-, rfl⟩ := List.mem_replicate.mp hl
      simp at he
      tauto
  · right
    left
    simpa using h2

/-- C5: an evaluation pass leaves the model parameters (and gradients, and
the training statistics) unchanged: its trace is bracketed by the
`torch.no_grad` context, contains no backward pass and no optimizer step,
and interpreting it over the library state changes only the run-manager's
test loss sum and correct-prediction count. -/
theorem test_run_frame_spec (hasSched isRLROP : Bool) (tl g lr dLoss : ℚ)
    (dCorrect : Nat) (m : Nat) (s : LibState) :
    runTrace g lr dLoss dCorrect (testRunTrace hasSched isRLROP tl m).1 s
      = { s with testLossSum := s.testLossSum + m * dLoss,
                 testCorrect := s.testCorrect + m * dCorrect }
    ∧ Ev.backwardPass ∉ (testRunTrace hasSched isRLROP tl m).1
    ∧ Ev.optStep ∉ (testRunTrace hasSched isRLROP tl m).1
    ∧ (testRunTrace hasSched isRLROP tl m).1.head? = some Ev.noGradEnter
    ∧ (testRunTrace hasSched isRLROP tl m).1.getLast? = some Ev.noGradExit := by
  refine ⟨?_, ?_, ?_, ?_, ?_⟩
  · rw [testRunTrace_fst]
    unfold runTrace
    rw [List.foldl_append, List.foldl_append]
    have h2 := runTrace_testLoop g lr dLoss dCorrect m s
    unfold runTrace at h2
    simp only [List.foldl_cons, List.foldl_nil, stepEv]
    rw [h2]
  · intro h
    rcases mem_testRunTrace hasSched isRLROP tl m _ h with h | h | h | h | h | h <;>
      simp at h
  · intro h
    rcases mem_testRunTrace hasSched isRLROP tl m _ h with h | h | h | h | h | h <;>
      simp at h
  · rw [testRunTrace_fst]
    rfl
  · rw [testRunTrace_fst, List.getLast?_concat]

/-- C8: when `Test.run` has a scheduler that is a `ReduceLROnPlateau`
instance, the post-loop call `pbar.write("In scheduler step with loss of ",
test_loss)` passes the test loss as `tqdm.write`'s `file` parameter and
raises, so the exception flag is set and
`scheduler.step(test_loss)` on the following line is never reached: no
test-scheduler step appears in the trace. -/
theorem test_run_rlrop_raises (tl : ℚ) (m : Nat) :
    tqdmWrite "In scheduler step with loss of " (.floatVal tl) = .error ()
    ∧ (testRunTrace true true tl m).2 = true
    ∧ Ev.testSchedStep ∉ (testRunTrace true true tl m).1 := by
  refine ⟨rfl, by simp [testRunTrace_snd], ?_⟩
  intro h
  rcases mem_testRunTrace true true tl m _ h with h | h | h | h | h | h <;>
    simp at h

/-! ### Filtering traces down to the run-manager calls -/

theorem filter_rm_trainBatchTrace (L1 : ℚ) (sched : Bool) :
    (trainBatchTrace L1 sched).filter (fun e => isRunManagerEv e)
      = [Ev.beginBatch, Ev.trackTrainLoss, Ev.trackTrainNumCorrect, Ev.endBatch] := by
  by_cases h : L1 > 0 <;> cases sched <;>
    simp [trainBatchTrace, h, isRunManagerEv]

theorem filter_rm_flatten_replicate (n : Nat) (l r : List Ev)
    (h : l.filter (fun e => isRunManagerEv e) = r) :
    ((List.replicate n l).flatten).filter (fun e => isRunManagerEv e)
      = (List.replicate n r).flatten := by
  induction n with
  | zero => simp
  | succ k ih => simp [List.replicate_succ, List.filter_append, h, ih]

theorem filter_rm_trainRunTrace (L1 : ℚ) (sched : Bool) (n : Nat) :
    (trainRunTrace L1 sched n).filter (fun e => isRunManagerEv e)
      = (List.replicate n
          [Ev.beginBatch, Ev.trackTrainLoss, Ev.trackTrainNumCorrect, Ev.endBatch]).flatten := by
  unfold trainRunTrace
  exact filter_rm_flatten_replicate n _ _ (filter_rm_trainBatchTrace L1 sched)

theorem filter_rm_testRunTrace (hasSched isRLROP : Bool) (tl : ℚ) (m : Nat) :
    ((testRunTrace hasSched isRLROP tl m).1).filter (fun e => isRunManagerEv e)
      = (List.replicate m [Ev.trackTestLoss, Ev.trackTestNumCorrect]).flatten := by
  rw [testRunTrace_fst, List.filter_append, List.filter_append,
    filter_rm_flatten_replicate m
      [Ev.forwardPass, Ev.lossCalc, Ev.trackTestLoss, Ev.trackTestNumCorrect]
      [Ev.trackTestLoss, Ev.trackTestNumCorrect] rfl]
  simp [isRunManagerEv]

theorem filter_rm_epochTrace (cfg : MTConfig) (tl : ℚ) (n m : Nat)
    (h : (cfg.hasSched && cfg.isRLROP) = false) :
    ((epochTrace cfg tl n m).1.filter (fun e => isRunManagerEv e)
        = [Ev.beginEpoch]
          ++ (List.replicate n
              [Ev.beginBatch, Ev.trackTrainLoss, Ev.trackTrainNumCorrect, Ev.endBatch]).flatten
          ++ (List.replicate m [Ev.trackTestLoss, Ev.trackTestNumCorrect]).flatten
          ++ [Ev.endEpoch, Ev.savebest])
    ∧ (epochTrace cfg tl n m).2 = false := by
  unfold epochTrace
  simp only [testRunTrace_snd, h, Bool.false_eq_true, if_false]
  have h1 : List.filter (fun e => isRunManagerEv e) [Ev.beginEpoch]
      = [Ev.beginEpoch] := rfl
  have h2 : List.filter (fun e => isRunManagerEv e) [Ev.endEpoch, Ev.savebest]
      = [Ev.endEpoch, Ev.savebest] := rfl
  have h3 : List.filter (fun e => isRunManagerEv e) [Ev.epochSchedStep]
      = [] := rfl
  refine ⟨?_, trivial⟩
  rcases Bool.eq_false_or_eq_true (cfg.hasSched && !cfg.batchSched && !cfg.isRLROP)
    with hg | hg <;>
    simp only [hg, Bool.false_eq_true, if_false, if_true, List.filter_append,
      filter_rm_trainRunTrace, filter_rm_testRunTrace, h1, h2, h3,
      List.filter_nil, List.append_nil, List.append_assoc]

theorem filter_rm_epochLoop (cfg : MTConfig) (tl : ℚ) (n m : Nat)
    (h : (cfg.hasSched && cfg.isRLROP) = false) (epochs : Nat) :
    ((epochLoop cfg tl n m epochs).1.filter (fun e => isRunManagerEv e)
        = (List.replicate epochs
            ([Ev.beginEpoch]
              ++ (List.replicate n
                  [Ev.beginBatch, Ev.trackTrainLoss, Ev.trackTrainNumCorrect, Ev.endBatch]).flatten
              ++ (List.replicate m [Ev.trackTestLoss, Ev.trackTestNumCorrect]).flatten
              ++ [Ev.endEpoch, Ev.savebest])).flatten
          ++ [Ev.save])
    ∧ (epochLoop cfg tl n m epochs).2 = false := by
  induction epochs with
  | zero => simp [epochLoop, isRunManagerEv]
  | succ k ih =>
    have he := filter_rm_epochTrace cfg tl n m h
    unfold epochLoop
    simp only [he.2, Bool.false_eq_true, if_false]
    refine ⟨?_, ih.2⟩
    rw [List.replicate_succ, List.flatten_cons, List.filter_append, he.1, ih.1]
    simp [List.append_assoc]

/-- C4 counterexample: with a `ReduceLROnPlateau` scheduler configured
(`batch_scheduler = False`), one epoch and empty loaders, the evaluation
pass raises, so the run-manager never receives `end_epoch`, `savebest` or
the final `save`, contradicting the claimed call sequence. -/
theorem modeltrainer_trace_counterexample :
    (modelTrainerRunTrace ⟨true, true, false, 0⟩ 0 0 0 1).2 = true
    ∧ Ev.save ∉ (modelTrainerRunTrace ⟨true, true, false, 0⟩ 0 0 0 1).1
    ∧ Ev.endEpoch ∉ (modelTrainerRunTrace ⟨true, true, false, 0⟩ 0 0 0 1).1
    ∧ Ev.savebest ∉ (modelTrainerRunTrace ⟨true, true, false, 0⟩ 0 0 0 1).1 := by
  decide

/-- C4 (amended): provided the configured scheduler (if any) is not a
`ReduceLROnPlateau` instance — with one, the evaluation pass raises during
the first epoch and the remaining run-manager calls are never made — every
`ModelTrainer.run(tbrun, epochs)` with `epochs ≥ 1` delivers to the
run-manager exactly one `begin_run`, then per epoch: `begin_epoch`, a full
training pass (`begin_batch`, `track_train_loss`, `track_train_num_correct`,
`end_batch` per training batch), a full evaluation pass (`track_test_loss`,
`track_test_num_correct` per test batch), `end_epoch`, `savebest`; and
exactly one `save` after the last epoch. -/
theorem modeltrainer_trace_spec (cfg : MTConfig) (tl : ℚ) (n m epochs : Nat)
    (hsched : (cfg.hasSched && cfg.isRLROP) = false) (heps : 1 ≤ epochs) :
    (modelTrainerRunTrace cfg tl n m epochs).1.filter (fun e => isRunManagerEv e)
      = [Ev.beginRun]
        ++ (List.replicate epochs
            ([Ev.beginEpoch]
              ++ (List.replicate n
                  [Ev.beginBatch, Ev.trackTrainLoss, Ev.trackTrainNumCorrect, Ev.endBatch]).flatten
              ++ (List.replicate m [Ev.trackTestLoss, Ev.trackTestNumCorrect]).flatten
              ++ [Ev.endEpoch, Ev.savebest])).flatten
        ++ [Ev.save]
    ∧ (modelTrainerRunTrace cfg tl n m epochs).2 = false := by
  have h := filter_rm_epochLoop cfg tl n m hsched epochs
  unfold modelTrainerRunTrace
  refine ⟨?_, h.2⟩
  simp only [List.singleton_append, List.filter_cons, List.append_assoc]
  rw [h.1]
  simp [isRunManagerEv]

/-! ### Which traces can contain a scheduler step -/

theorem mem_trainRunTrace_imp {L1 : ℚ} {sched : Bool} {n : Nat} {e : Ev}
    (h : e ∈ trainRunTrace L1 sched n) : e ∈ trainBatchTrace L1 sched := by
  unfold trainRunTrace at h
  obtain ⟨l, hl, he⟩ := List.mem_flatten.mp h
  obtain ⟨-, rfl⟩ := List.mem_replicate.mp hl
  exact he

theorem batchSchedStep_mem_trainBatchTrace {L1 : ℚ} {sched : Bool}
    (h : Ev.batchSchedStep ∈ trainBatchTrace L1 sched) : sched = true := by
  cases sched
  · exfalso
    by_cases hl : L1 > 0 <;> simp [trainBatchTrace, hl] at h
  · rfl

theorem epochSchedStep_not_mem_trainBatchTrace (L1 : ℚ) (sched : Bool) :
    Ev.epochSchedStep ∉ trainBatchTrace L1 sched := by
  by_cases hl : L1 > 0 <;> cases sched <;> simp [trainBatchTrace, hl]

theorem mem_epochTrace_imp {cfg : MTConfig} {tl : ℚ} {n m : Nat} {e : Ev}
    (h : e ∈ (epochTrace cfg tl n m).1) :
    e = Ev.beginEpoch
    ∨ e ∈ trainRunTrace cfg.L1lambda (trainerSched cfg) n
    ∨ e ∈ (testRunTrace cfg.hasSched cfg.isRLROP tl m).1
    ∨ e = Ev.endEpoch ∨ e = Ev.savebest
    ∨ (e = Ev.epochSchedStep
        ∧ (cfg.hasSched && !cfg.batchSched && !cfg.isRLROP) = true) := by
  unfold epochTrace at h
  rcases Bool.eq_false_or_eq_true (testRunTrace cfg.hasSched cfg.isRLROP tl m).2
    with hb | hb <;>
    simp only [hb, Bool.false_eq_true, if_false, if_true, List.append_assoc,
      List.mem_append, List.mem_singleton, List.mem_cons] at h
  · tauto
  · rcases Bool.eq_false_or_eq_true (cfg.hasSched && !cfg.batchSched && !cfg.isRLROP)
      with hg | hg <;> rw [hg] at h
    · simp only [if_true, List.mem_singleton, List.not_mem_nil, or_false] at h
      tauto
    · simp only [Bool.false_eq_true, if_false, List.not_mem_nil, or_false] at h
      tauto

theorem mem_epochLoop_imp {cfg : MTConfig} {tl : ℚ} {n m epochs : Nat} {e : Ev}
    (h : e ∈ (epochLoop cfg tl n m epochs).1) :
    e ∈ (epochTrace cfg tl n m).1 ∨ e = Ev.save := by
  induction epochs with
  | zero =>
    right
    simpa [epochLoop] using h
  | succ k ih =>
    unfold epochLoop at h
    rcases Bool.eq_false_or_eq_true (epochTrace cfg tl n m).2 with hb | hb <;>
      simp only [hb, Bool.false_eq_true, if_false, if_true, List.mem_append] at h
    · exact Or.inl h
    · rcases h with h | h
      · exact Or.inl h
      · exact ih h

theorem mem_modelTrainerRunTrace_imp {cfg : MTConfig} {tl : ℚ}
    {n m epochs : Nat} {e : Ev}
    (h : e ∈ (modelTrainerRunTrace cfg tl n m epochs).1) :
    e = Ev.beginRun ∨ e ∈ (epochTrace cfg tl n m).1 ∨ e = Ev.save := by
  unfold modelTrainerRunTrace at h
  simp only [List.singleton_append, List.mem_cons] at h
  rcases h with h | h
  · exact Or.inl h
  · rcases mem_epochLoop_imp h with h | h
    · exact Or.inr (Or.inl h)
    · exact Or.inr (Or.inr h)

theorem batchSched_of_mem_run {cfg : MTConfig} {tl : ℚ} {n m epochs : Nat}
    (h : Ev.batchSchedStep ∈ (modelTrainerRunTrace cfg tl n m epochs).1) :
    trainerSched cfg = true := by
  rcases mem_modelTrainerRunTrace_imp h with h | h | h
  · exact absurd h (by decide)
  · rcases mem_epochTrace_imp h with h | h | h | h | h | ⟨h, -⟩
    · exact absurd h (by decide)
    · exact batchSchedStep_mem_trainBatchTrace (mem_trainRunTrace_imp h)
    · rcases mem_testRunTrace _ _ _ _ _ h with h | h | h | h | h | h <;>
        exact absurd h (by decide)
    · exact absurd h (by decide)
    · exact absurd h (by decide)
    · exact absurd h (by decide)
  · exact absurd h (by decide)

theorem epochGuard_of_mem_run {cfg : MTConfig} {tl : ℚ} {n m epochs : Nat}
    (h : Ev.epochSchedStep ∈ (modelTrainerRunTrace cfg tl n m epochs).1) :
    (cfg.hasSched && !cfg.batchSched && !cfg.isRLROP) = true := by
  rcases mem_modelTrainerRunTrace_imp h with h | h | h
  · exact absurd h (by decide)
  · rcases mem_epochTrace_imp h with h | h | h | h | h | ⟨-, hg⟩
    · exact absurd h (by decide)
    · exact absurd (mem_trainRunTrace_imp h)
        (epochSchedStep_not_mem_trainBatchTrace _ _)
    · rcases mem_testRunTrace _ _ _ _ _ h with h | h | h | h | h | h <;>
        exact absurd h (by decide)
    · exact absurd h (by decide)
    · exact absurd h (by decide)
    · exact hg
  · exact absurd h (by decide)

/-- C9: in a single `ModelTrainer` run the scheduler is stepped on at most
one of the two cadences, never both: a per-batch scheduler step in the
trace implies the run was configured with `batch_scheduler = True` (and a
scheduler), and no epoch-level step occurs; an epoch-level step implies
`batch_scheduler` is false, the scheduler is present and is not a
`ReduceLROnPlateau` instance, and no per-batch step occurs. -/
theorem scheduler_single_cadence (cfg : MTConfig) (tl : ℚ) (n m epochs : Nat) :
    (Ev.batchSchedStep ∈ (modelTrainerRunTrace cfg tl n m epochs).1 →
        cfg.batchSched = true ∧ cfg.hasSched = true
        ∧ Ev.epochSchedStep ∉ (modelTrainerRunTrace cfg tl n m epochs).1)
    ∧ (Ev.epochSchedStep ∈ (modelTrainerRunTrace cfg tl n m epochs).1 →
        cfg.batchSched = false ∧ cfg.isRLROP = false ∧ cfg.hasSched = true
        ∧ Ev.batchSchedStep ∉ (modelTrainerRunTrace cfg tl n m epochs).1) := by
  constructor
  · intro h
    have hts := batchSched_of_mem_run h
    have hts' : cfg.hasSched = true ∧ cfg.batchSched = true := by
      simpa [trainerSched] using hts
    obtain ⟨hhs, hbs⟩ := hts'
    refine ⟨hbs, hhs, fun hmem => ?_⟩
    have hg := epochGuard_of_mem_run hmem
    rw [hbs] at hg
    simp at hg
  · intro h
    have hg := epochGuard_of_mem_run h
    have hg' : (cfg.hasSched = true ∧ cfg.batchSched = false)
        ∧ cfg.isRLROP = false := by
      simpa [Bool.and_eq_true] using hg
    obtain ⟨⟨hhs, hbs⟩, hrl⟩ := hg'
    refine ⟨hbs, hrl, hhs, fun hmem => ?_⟩
    have hts := batchSched_of_mem_run hmem
    unfold trainerSched at hts
    rw [hbs] at hts
    simp at hts

/-- Witness for C9: a run configured with `batch_scheduler = True` whose
trace contains a per-batch scheduler step contains no epoch-level one. -/
theorem scheduler_single_cadence_witness :
    Ev.epochSchedStep ∉ (modelTrainerRunTrace ⟨true, false, true, 0⟩ 0 1 0 1).1 :=
  ((scheduler_single_cadence ⟨true, false, true, 0⟩ 0 1 0 1).1 (by decide)).2.2

/-- Witness for C4 (amended) with no scheduler, one epoch, one training and
one test batch. -/
theorem modeltrainer_trace_spec_witness :
    (modelTrainerRunTrace ⟨false, false, false, 0⟩ 0 1 1 1).1.filter
        (fun e => isRunManagerEv e)
      = [Ev.beginRun, Ev.beginEpoch,
         Ev.beginBatch, Ev.trackTrainLoss, Ev.trackTrainNumCorrect, Ev.endBatch,
         Ev.trackTestLoss, Ev.trackTestNumCorrect,
         Ev.endEpoch, Ev.savebest, Ev.save] := by
  have h := (modeltrainer_trace_spec ⟨false, false, false, 0⟩ 0 1 1 1 rfl
    (by decide)).1
  rw [h]
  decide

/-- C6: for an input of shape `N × planes × H × W` (with `H, W ≥ 1`),
`ResBlock.forward` returns
`x + relu(bn2(conv2(relu(bn1(conv1(x))))))` — an identity skip connection
added elementwise to the transformed branch — and both 3×3 stride-1
padding-1 convolutions, the transformed branch, and the block's output all
have the same shape as the input. -/
theorem resblock_forward_spec (planes : Nat) (rw : ResBlockWeights)
    (x : Tensor4) (hc : x.c = planes) (hh : 1 ≤ x.h) (hw : 1 ≤ x.w) :
    resBlockForward planes rw x
      = addT x (reluT (batchNorm2d rw.bn2scale rw.bn2shift
          (conv2d planes 3 1 1 rw.conv2w
            (reluT (batchNorm2d rw.bn1scale rw.bn1shift
              (conv2d planes 3 1 1 rw.conv1w x))))))
    ∧ shapeOf (conv2d planes 3 1 1 rw.conv1w x) = (x.n, x.c, x.h, x.w)
    ∧ shapeOf (conv2d planes 3 1 1 rw.conv2w
        (reluT (batchNorm2d rw.bn1scale rw.bn1shift
          (conv2d planes 3 1 1 rw.conv1w x)))) = (x.n, x.c, x.h, x.w)
    ∧ shapeOf (reluT (batchNorm2d rw.bn2scale rw.bn2shift
        (conv2d planes 3 1 1 rw.conv2w
          (reluT (batchNorm2d rw.bn1scale rw.bn1shift
            (conv2d planes 3 1 1 rw.conv1w x)))))) = (x.n, x.c, x.h, x.w)
    ∧ shapeOf (resBlockForward planes rw x) = shapeOf x := by
  refine ⟨rfl, ?_, ?_, ?_, rfl⟩ <;>
    simp [shapeOf, conv2d, reluT, batchNorm2d, hc,
      convOutDim_three_one_one _ hh, convOutDim_three_one_one _ hw]

/-- Witness for C6 on a concrete 1×1×1×1 input. -/
theorem resblock_forward_spec_witness :
    1 ≤ exX.h ∧ shapeOf (resBlockForward 1 exRW exX) = shapeOf exX :=
  ⟨by decide,
   (resblock_forward_spec 1 exRW exX rfl (by decide) (by decide)).2.2.2.2⟩

/-- C7: `S11Block.forward` first computes `relu(bn(maxpool2(conv(x))))` and
applies the residual sub-block to that result exactly when the block was
constructed with `parallel = True`; with `parallel = False` the output is
`relu(bn(maxpool2(conv(x))))` alone.  `S11Net.__init__` constructs `layer2`
as `S11Block(128, 256, False)` (no residual branch) and `layer1`, `layer3`
with the default `parallel = True`. -/
theorem s11block_forward_spec (inp planes : Nat)
    (cw : Nat → Nat → Nat → Nat → ℚ) (bs bsh : Nat → ℚ)
    (rw : ResBlockWeights) (x : Tensor4) :
    s11BlockForward (s11BlockInit inp planes false cw bs bsh rw) x
        = some (reluT (batchNorm2d bs bsh (maxPool2 (conv2d planes 3 1 1 cw x))))
    ∧ s11BlockForward (s11BlockInit inp planes true cw bs bsh rw) x
        = some (resBlockForward planes rw
            (reluT (batchNorm2d bs bsh (maxPool2 (conv2d planes 3 1 1 cw x)))))
    ∧ ∀ (w1 w2 w3 : Nat → Nat → Nat → Nat → ℚ) (s1 sh1 s2 sh2 s3 sh3 : Nat → ℚ)
        (r1 r2 r3 : ResBlockWeights),
        (s11NetLayers w1 w2 w3 s1 sh1 s2 sh2 s3 sh3 r1 r2 r3).2.1.parallel = false
        ∧ (s11NetLayers w1 w2 w3 s1 sh1 s2 sh2 s3 sh3 r1 r2 r3).2.1.in_planes = 128
        ∧ (s11NetLayers w1 w2 w3 s1 sh1 s2 sh2 s3 sh3 r1 r2 r3).2.1.planes = 256
        ∧ (s11NetLayers w1 w2 w3 s1 sh1 s2 sh2 s3 sh3 r1 r2 r3).1.parallel = true
        ∧ (s11NetLayers w1 w2 w3 s1 sh1 s2 sh2 s3 sh3 r1 r2 r3).2.2.parallel = true := by
  refine ⟨?_, ?_, ?_⟩
  · simp [s11BlockForward, s11BlockInit]
  · simp [s11BlockForward, s11BlockInit]
  · intro w1 w2 w3 s1 sh1 s2 sh2 s3 sh3 r1 r2 r3
    simp [s11NetLayers, s11BlockInit]

/-- C10: for a label tensor of shape `N × 1 × H × W` whose integer entries
lie in `[0, num_classes)`, `make_one_hot` returns an
`N × num_classes × H × W` tensor in which, at each position `(n, h, w)`,
the entry at channel `labels[n,0,h,w]` is 1 and every other channel entry
is 0. -/
theorem make_one_hot_spec (labels : IntTensor4) (numClasses : Nat)
    (h1 : labels.c = 1)
    (hrange : ∀ b i j, b < labels.n → i < labels.h → j < labels.w →
        0 ≤ labels.data b 0 i j ∧ labels.data b 0 i j < (numClasses : Int)) :
    (make_one_hot labels numClasses).n = labels.n
    ∧ (make_one_hot labels numClasses).c = numClasses
    ∧ (make_one_hot labels numClasses).h = labels.h
    ∧ (make_one_hot labels numClasses).w = labels.w
    ∧ ∀ b ch i j, b < labels.n → ch < numClasses → i < labels.h →
        j < labels.w →
        (make_one_hot labels numClasses).data b ch i j
          = if labels.data b 0 i j = (ch : Int) then 1 else 0 := by
  refine ⟨rfl, rfl, rfl, rfl, ?_⟩
  intro b ch i j hb hch hi hj
  have hgoal : (make_one_hot labels numClasses).data b ch i j
      = if b < labels.n ∧ i < labels.h ∧ j < labels.w ∧
          (∃ jj ∈ Finset.range labels.c, labels.data b jj i j = (ch : Int))
        then (1 : ℚ) else 0 := rfl
  rw [hgoal, h1]
  by_cases he : labels.data b 0 i j = (ch : Int)
  · rw [if_pos ⟨hb, hi, hj, 0, Finset.mem_range.mpr Nat.one_pos, he⟩, if_pos he]
  · rw [if_neg ?_, if_neg he]
    rintro ⟨-, -, -, jj, hjj, hdata⟩
    rw [Finset.mem_range] at hjj
    have hz : jj = 0 := by omega
    rw [hz] at hdata
    exact he hdata

/-- Witness for C10 on a concrete 1×1×1×1 label tensor whose single label
is 0, with two classes. -/
theorem make_one_hot_spec_witness :
    (make_one_hot exLabels 2).data 0 0 0 0 = 1
    ∧ (make_one_hot exLabels 2).data 0 1 0 0 = 0 := by
  have h := (make_one_hot_spec exLabels 2 rfl
    (fun b i j _ _ _ => ⟨by norm_num [exLabels], by norm_num [exLabels]⟩)).2.2.2.2
  constructor
  · rw [h 0 0 0 0 (by decide) (by decide) (by decide) (by decide)]
    norm_num [exLabels]
  · rw [h 0 1 0 0 (by decide) (by decide) (by decide) (by decide)]
    norm_num [exLabels]

end EVA4
